import Mathlib

/-!
Verification of the macro execution engine of the grblHAL keypad plugin
(src/macros.c).  The engine substitutes a stored macro text for the host's
live input stream, feeds it character by character to the host's command
interpreter (mapping the `|` block delimiter to a line feed), traps
non-success status codes to abort early, and tears the substitution down on
completion, error or reset.

The embedding is a shallow one: the C module's static variables
(`command`, the static local `eol_ok` of get_macro_char, `active_stream`,
`status_message`, `on_macro_return`) together with the host-global slots the
module reads and writes (`hal.stream`, `grbl.report.status_message`,
`grbl.on_macro_return`) form an explicit state record, and each C function
becomes a state-passing Lean function.  Function pointers are modelled by
small inductive types whose dedicated constructor stands for pointer
equality with the engine's own function (get_macro_char,
trap_status_messages, end_macro); any other value stands for some foreign
pointer.  Calls made to external handlers and the warning message emitted by
the trap are recorded as events.

A `List Char` models the bytes of a NUL-terminated C buffer up to (not
including) the first NUL, except that an all-0xFF erased-NVS buffer is the
list of its 0xFF bytes.
-/

namespace Macros

/-- N_MACROS for the default configuration of src/macros.c (symbol not
overridden, MACROS_ENABLE == 1 or 3): 2 slots. -/
def N_MACROS : Nat := 2

/-- MACRO_LENGTH_MAX for the default configuration (N_MACROS <= 4): 127. -/
def MACRO_LENGTH_MAX : Nat := 127

/-- First setting number for macro content: settings $490-$497 define the
macro texts (header comment of src/macros.c). -/
def Setting_MacroBase : Nat := 490

/-- grblHAL machine state value STATE_IDLE. -/
def STATE_IDLE : Nat := 0

/-- Host status code Status_OK (0). -/
def Status_OK : Nat := 0

/-- Host status code Status_Unhandled.  The numeric value lives in the host
core's enum; nothing here depends on it beyond it being a fixed code. -/
def Status_Unhandled : Nat := 58

/-- Return value of a stream read function when no input is available. -/
def SERIAL_NO_DATA : Int := -1

/-- The line-feed character code. -/
def ASCII_LF : Int := 10

/-- What `hal.stream.read` points at: the engine's substitute
get_macro_char, or some other (device) read function. -/
inductive ReadSrc
  | macroChar
  | dev (id : Nat)
deriving DecidableEq, Repr

/-- What a status-message handler slot points at: the engine's
trap_status_messages, a foreign handler, or NULL. -/
inductive StatusPtr
  | trap
  | ext (h : Nat)
  | null
deriving DecidableEq, Repr

/-- What an on_macro_return slot points at: the engine's end_macro, a
foreign handler, or NULL. -/
inductive RetPtr
  | endMacroHook
  | ext (h : Nat)
  | null
deriving DecidableEq, Repr

/-- The io_stream_t struct: the read pointer and file field that
run_macro/end_macro manipulate, plus the remaining fields (copied wholesale
by the memcpy calls) collapsed into one opaque component. -/
structure IOStream where
  read : ReadSrc
  file : Option Nat
  rest : Nat
deriving DecidableEq, Repr

/-- The engine's state: the module statics of src/macros.c together with
the three host-global slots it owns while a run is active.
`command = none` models the NULL cursor. -/
structure EngineState where
  command : Option (List Char)
  eol_ok : Bool
  halStream : IOStream
  activeStream : IOStream
  reportStatus : StatusPtr
  savedStatus : StatusPtr
  grblMacroReturn : RetPtr
  savedMacroReturn : RetPtr
deriving DecidableEq, Repr

/-- Observable effects of the trap: the warning message
`"error %d in macro"` (carrying the printed (uint8_t) status code) and a
call forwarding a status to an external handler. -/
inductive Event
  | warning (code : Nat)
  | fwdStatus (h : Nat) (code : Nat)
deriving DecidableEq, Repr

/-- The guard `*cmd == '\0' || *cmd == 0xFF` shared by run_macro and
macro_execute: a slot is unassigned when its text is empty or starts with
the 0xFF erased-NVS sentinel byte. -/
def slotEmpty : List Char → Bool
  | [] => true
  | c :: _ => decide (c = Char.ofNat 0) || decide (c = Char.ofNat 0xFF)

/-- end_macro from src/macros.c: if the substitute is installed as
hal.stream.read, copy the saved stream back; then, if a run is active
(command non-NULL), clear the cursor, restore the macro-return chain, and,
if the status-message chain still points at the trap, restore the saved
status handler; both saved statics are cleared to NULL. -/
def end_macro (s : EngineState) : EngineState :=
  let s1 := if s.halStream.read = ReadSrc.macroChar then
      { s with halStream := s.activeStream }
    else s
  if s1.command.isSome then
    { s1 with
      command := none,
      grblMacroReturn := s1.savedMacroReturn,
      savedMacroReturn := RetPtr.null,
      reportStatus := if s1.reportStatus = StatusPtr.trap then s1.savedStatus
        else s1.reportStatus,
      savedStatus := StatusPtr.null }
  else s1

/-- plugin_reset from src/macros.c: tears down via end_macro
unconditionally, then calls the previously chained driver reset handler.
That handler is host/driver code; it is modelled as an arbitrary state
transformer received as an argument. -/
def plugin_reset (driver_reset : EngineState → EngineState)
    (s : EngineState) : EngineState :=
  driver_reset ( end_macro s)

/-- get_macro_char from src/macros.c.  The static local `eol_ok` lives in
the engine state.  `command = none` models the NULL cursor: the host polls
the function only while it is installed as hal.stream.read, which (engine
invariant) implies a non-NULL cursor, so the C never dereferences NULL
here; that unreachable branch is mapped to SERIAL_NO_DATA. -/
def get_macro_char (s : EngineState) : Int × EngineState :=
  match s.command with
  | none => (SERIAL_NO_DATA, s)
  | some cs =>
    match cs with
    | [] =>
      if s.eol_ok then
        (SERIAL_NO_DATA, end_macro s)
      else
        (ASCII_LF, { s with eol_ok := true })
    | c :: rest =>
      if c = '|' then
        (ASCII_LF, { s with command := some rest, eol_ok := true })
      else
        ((c.toNat : Int), { s with command := some rest, eol_ok := false })

/-- trap_status_messages from src/macros.c.  `ext` gives the behaviour of a
foreign status handler (handler id and status code in, status code out);
calls to foreign handlers and the warning message are recorded as events.
In the C, a saved handler equal to the trap itself would recurse forever
and a NULL saved handler called through the first branch would fault; both
are unreachable while the engine invariant holds and are modelled as
leaving the status unchanged without a call. -/
def trap_status_messages (ext : Nat → Nat → Nat) (s : EngineState)
    (status_code : Nat) : Nat × EngineState × List Event :=
  if s.halStream.read ≠ ReadSrc.macroChar then
    match s.savedStatus with
    | StatusPtr.ext h => (ext h status_code, s, [Event.fwdStatus h status_code])
    | _ => (status_code, s, [])
  else if status_code ≠ Status_OK then
    let w := Event.warning (status_code % 256)
    if s.reportStatus = StatusPtr.trap then
      let s1 := { s with reportStatus := s.savedStatus }
      match s.savedStatus with
      | StatusPtr.ext h =>
        (ext h status_code, end_macro s1, [w, Event.fwdStatus h status_code])
      | _ => (status_code, end_macro s1, [w])
    else
      (status_code, end_macro s, [w])
  else
    (status_code, s, [])

/-- run_macro from src/macros.c.  `cmd` is the slot text the void pointer
points at and `mstate` the value state_get() returns.  When the guard
passes, the cursor is set, the live stream is saved and redirected to
get_macro_char (with the file field cleared), and the status-message and
macro-return chains are saved and replaced by the trap and by end_macro. -/
def run_macro (cmd : List Char) (mstate : Nat) (s : EngineState) :
    EngineState :=
  if slotEmpty cmd = false ∧ s.halStream.read ≠ ReadSrc.macroChar ∧
      mstate = STATE_IDLE then
    { s with
      command := some cmd,
      activeStream := s.halStream,
      halStream := { s.halStream with read := ReadSrc.macroChar, file := none },
      savedStatus := s.reportStatus,
      reportStatus := StatusPtr.trap,
      savedMacroReturn := s.grblMacroReturn,
      grblMacroReturn := RetPtr.endMacroHook }
  else s

/-- The array index `macro - 1` computed in macro_execute: macro_id_t is an
unsigned 8-bit id, so id 0 wraps around to 255. -/
def macroSlotIndex (mid : Nat) : Nat := (mid + 255) % 256

/-- The `ok` guard of macro_execute: id within the upper bound
`macro <= N_MACROS` and slot text neither empty nor the 0xFF sentinel.  The
out-of-bounds array read the C performs at mid = 0 is modelled by the total
lookup List.get?, which returns none there. -/
def macroOk (slots : List (List Char)) (mid : Nat) : Bool :=
  decide (mid ≤ N_MACROS) &&
    (match slots.get? (macroSlotIndex mid) with
     | some d => !(slotEmpty d)
     | none => false)

/-- macro_execute from src/macros.c.  `slots` holds the data fields of
plugin_settings.macro, `chain` the saved on_macro_execute handler (with
`extExec` its behaviour), `mstate` the value of state_get(). -/
def macro_execute (slots : List (List Char)) (chain : Option Nat)
    (extExec : Nat → Nat → Nat) (mstate : Nat) (s : EngineState)
    (mid : Nat) : Nat × EngineState :=
  let ok := macroOk slots mid
  let s' := if ok = true ∧ mstate = STATE_IDLE then
      run_macro ((slots.get? (macroSlotIndex mid)).getD []) mstate s
    else s
  let st := if ok = true then Status_OK
    else match chain with
      | some h => extExec h mid
      | none => Status_Unhandled
  (st, s')

/-- macro_set from src/macros.c: stores the value into slot
`id - Setting_MacroBase` and returns Status_OK.  There is no length check
here: the strcpy copies unconditionally (an oversized value would overflow
the MACRO_LENGTH_MAX + 1 byte buffer in C); capacity is only declared to
the host settings framework through the registered max_length string. -/
def macro_set (slots : List (List Char)) (id : Nat) (value : List Char) :
    Nat × List (List Char) :=
  (Status_OK, slots.set (id - Setting_MacroBase) value)

/-- A nonzero status standing for the spec's ValidationError; the concrete
number is immaterial. -/
def Status_ValidationError : Nat := 3

/-- Modelled from the spec: the host settings framework — code outside this
repository — validates a Format_String setting value against the maximum
length the plugin registers (max_length, written from MACRO_LENGTH_MAX in
macros_init) before invoking the plugin's set function, rejecting oversized
text before storage and leaving the slot unchanged. -/
def store_macro_setting (slots : List (List Char)) (id : Nat)
    (value : List Char) : Nat × List (List Char) :=
  if value.length ≤ MACRO_LENGTH_MAX then macro_set slots id value
  else (Status_ValidationError, slots)

/-- One character of macro text as the spec says it reaches the
interpreter: the `|` delimiter becomes a line feed, anything else passes
through unchanged. -/
def transChar (c : Char) : Int :=
  if c = '|' then ASCII_LF else (c.toNat : Int)

/-- The character sequence the spec promises for macro text T: T with each
delimiter mapped to a line feed, followed by one additional trailing line
feed iff T does not already end in the delimiter. -/
def macroOutput (T : List Char) : List Int :=
  T.map transChar ++ (if T.getLast? = some '|' then [] else [ASCII_LF])

/-- What get_macro_char yields from cursor position cs with a given eol_ok
flag, up to the end-of-macro handling (exclusive of the final
SERIAL_NO_DATA). -/
def emitFrom : List Char → Bool → List Int
  | [], eol => if eol then [] else [ASCII_LF]
  | c :: cs, _ => transChar c :: emitFrom cs (decide (c = '|'))

/-- Poll the substitute character source repeatedly (with fuel), collecting
everything returned up to and including the first SERIAL_NO_DATA. -/
def pollTrace : Nat → EngineState → List Int × EngineState
  | 0, s => ([], s)
  | n + 1, s =>
    let r := get_macro_char s
    if r.1 = SERIAL_NO_DATA then ([r.1], r.2)
    else
      let t := pollTrace n r.2
      (r.1 :: t.1, t.2)

/-- The claimed invariant: an active run (non-NULL cursor) exists iff the
host's character source is the engine's substitute. -/
def EngineInv (s : EngineState) : Prop :=
  s.command ≠ none ↔ s.halStream.read = ReadSrc.macroChar

/-- Inductive strengthening of the invariant: while a run is active the
saved stream is the original device stream, never the substitute itself
(run_macro only captures hal.stream when the substitute is not
installed). -/
def EngineInvS (s : EngineState) : Prop :=
  EngineInv s ∧ (s.command ≠ none → s.activeStream.read ≠ ReadSrc.macroChar)

/-- A quiescent host state: no run active, a device stream installed,
foreign handlers in both chains, the module statics at their initial NULL
values. -/
def initState : EngineState :=
  { command := none,
    eol_ok := false,
    halStream := { read := ReadSrc.dev 0, file := none, rest := 0 },
    activeStream := { read := ReadSrc.dev 0, file := none, rest := 0 },
    reportStatus := StatusPtr.ext 0,
    savedStatus := StatusPtr.null,
    grblMacroReturn := RetPtr.ext 0,
    savedMacroReturn := RetPtr.null }

/-- A concrete mid-run state as run_macro installs it from initState. -/
def midRunState : EngineState :=
  { command := some ['G', '4'],
    eol_ok := false,
    halStream := { read := ReadSrc.macroChar, file := none, rest := 0 },
    activeStream := { read := ReadSrc.dev 0, file := none, rest := 0 },
    reportStatus := StatusPtr.trap,
    savedStatus := StatusPtr.ext 0,
    grblMacroReturn := RetPtr.endMacroHook,
    savedMacroReturn := RetPtr.ext 0 }

lemma emitFrom_eq_macroOutput (cs : List Char) (h : cs ≠ []) (eol : Bool) :
    emitFrom cs eol = macroOutput cs := by
  induction cs generalizing eol with
  | nil => exact absurd rfl h
  | cons c cs ih =>
    cases cs with
    | nil =>
      by_cases hc : c = '|'
      · simp [emitFrom, macroOutput, hc, transChar]
      · simp [emitFrom, macroOutput, hc, transChar]
    | cons d ds =>
      rw [emitFrom, ih (by simp)]
      simp [macroOutput, List.getLast?_cons_cons]

lemma pollTrace_run (cs : List Char) : ∀ s : EngineState,
    s.command = some cs → s.halStream.read = ReadSrc.macroChar →
    pollTrace (cs.length + 2) s =
      (emitFrom cs s.eol_ok ++ [SERIAL_NO_DATA],
        end_macro { s with command := some [], eol_ok := true }) := by
  induction cs with
  | nil =>
    rintro ⟨cmd, eol, hs, as, rs, ss, gr, sr⟩ hc hr
    simp only at hc hr
    subst hc
    cases eol with
    | true => simp [pollTrace, get_macro_char, emitFrom]
    | false =>
      simp [pollTrace, get_macro_char, emitFrom, ASCII_LF, SERIAL_NO_DATA]
  | cons c cs ih =>
    rintro ⟨cmd, eol, hs, as, rs, ss, gr, sr⟩ hc hr
    simp only at hc hr
    subst hc
    by_cases hc' : c = '|'
    · subst hc'
      have step := ih (EngineState.mk (some cs) true hs as rs ss gr sr) rfl hr
      show pollTrace (cs.length + 2 + 1) _ = _
      rw [pollTrace]
      simp only [get_macro_char, if_pos rfl]
      simp only [SERIAL_NO_DATA, ASCII_LF] at step ⊢
      norm_num [step, emitFrom, transChar, ASCII_LF]
    · have step := ih (EngineState.mk (some cs) false hs as rs ss gr sr) rfl hr
      show pollTrace (cs.length + 2 + 1) _ = _
      rw [pollTrace]
      simp only [get_macro_char, if_neg hc']
      have hne : ((c.toNat : Int) = SERIAL_NO_DATA) = False := by
        simp only [SERIAL_NO_DATA, eq_iff_iff, iff_false]
        omega
      simp only [hne, if_false, SERIAL_NO_DATA] at step ⊢
      simp [step, emitFrom, transChar, hc']

/-- C1: for every non-empty stored macro text T (a NUL-free C string whose
first byte is not the 0xFF sentinel), starting a run from a quiescent state
and polling the substitute character source yields exactly T with each `|`
delimiter replaced by a line feed, followed by one additional trailing line
feed iff T does not already end in `|`, then SERIAL_NO_DATA; afterwards the
run has been torn down: the cursor is cleared and the stream binding,
status-message chain and macro-return chain are back at their pre-run
values. -/
theorem macro_run_produces_spec_output (T : List Char) (s : EngineState)
    (hne : T ≠ []) (hnul : Char.ofNat 0 ∉ T)
    (hsent : T.head? ≠ some (Char.ofNat 0xFF))
    (hread : s.halStream.read ≠ ReadSrc.macroChar) :
    (pollTrace (T.length + 2) ( run_macro T STATE_IDLE s)).1
        = macroOutput T ++ [SERIAL_NO_DATA] ∧
    (pollTrace (T.length + 2) ( run_macro T STATE_IDLE s)).2.command
        = none ∧
    (pollTrace (T.length + 2) ( run_macro T STATE_IDLE s)).2.halStream
        = s.halStream ∧
    (pollTrace (T.length + 2) ( run_macro T STATE_IDLE s)).2.reportStatus
        = s.reportStatus ∧
    (pollTrace (T.length + 2) ( run_macro T STATE_IDLE s)).2.grblMacroReturn
        = s.grblMacroReturn := by
  have hg : slotEmpty T = false := by
    cases T with
    | nil => exact absurd rfl hne
    | cons c cs =>
      have h0 : ¬(c = Char.ofNat 0) := fun h => hnul (h ▸ List.mem_cons_self c cs)
      have hF : ¬(c = Char.ofNat 0xFF) := by
        intro h
        exact hsent (by simp [h])
      simp [slotEmpty, h0, hF]
  have hrun : run_macro T STATE_IDLE s =
      { s with
        command := some T,
        activeStream := s.halStream,
        halStream := { s.halStream with read := ReadSrc.macroChar, file := none },
        savedStatus := s.reportStatus,
        reportStatus := StatusPtr.trap,
        savedMacroReturn := s.grblMacroReturn,
        grblMacroReturn := RetPtr.endMacroHook } := by
    rw [ run_macro, if_pos ⟨hg, hread, rfl⟩]
  have hpoll := pollTrace_run T ( run_macro T STATE_IDLE s)
    (by rw [hrun]) (by rw [hrun])
  rw [hrun] at hpoll ⊢
  rw [hpoll]
  refine ⟨?_, ?_, ?_, ?_, ?_⟩ <;>
    simp [ end_macro, emitFrom_eq_macroOutput T hne]

/-- Witness for C1: running the concrete macro text "a|b" from a quiescent
state yields a, LF, b, LF, no-data. -/
theorem macro_run_produces_spec_output_witness :
    (pollTrace ((['a', '|', 'b'] : List Char).length + 2)
        ( run_macro ['a', '|', 'b'] STATE_IDLE initState)).1
      = macroOutput ['a', '|', 'b'] ++ [SERIAL_NO_DATA] :=
  (macro_run_produces_spec_output ['a', '|', 'b'] initState (by decide)
    (by decide) (by decide) (by decide)).1

lemma end_macro_invS (s : EngineState) (h : EngineInvS s) :
    EngineInvS ( end_macro s) := by
  obtain ⟨cmd, eol, ⟨hsr, hsf, hsx⟩, ⟨asr, asf, asx⟩, rs, ss, gr, sr⟩ := s
  obtain ⟨h1, h2⟩ := h
  cases cmd <;> cases hsr <;> cases asr <;>
    simp_all [EngineInv, EngineInvS, end_macro]

lemma run_macro_invS (cmd : List Char) (m : Nat) (s : EngineState)
    (h : EngineInvS s) : EngineInvS ( run_macro cmd m s) := by
  by_cases hg : slotEmpty cmd = false ∧ s.halStream.read ≠ ReadSrc.macroChar ∧
      m = STATE_IDLE
  · rw [ run_macro, if_pos hg]
    exact ⟨by simp [EngineInv], fun _ => hg.2.1⟩
  · rw [ run_macro, if_neg hg]
    exact h

lemma get_macro_char_invS (s : EngineState) (h : EngineInvS s) :
    EngineInvS (get_macro_char s).2 := by
  match hc : s.command with
  | none =>
    simpa [get_macro_char, hc] using h
  | some [] =>
    by_cases he : s.eol_ok = true
    · simpa [get_macro_char, hc, he] using end_macro_invS s h
    · have he' : s.eol_ok = false := by simpa using he
      have h' : EngineInvS { s with eol_ok := true } := h
      simpa [get_macro_char, hc, he'] using h'
  | some (c :: rest) =>
    have hr : s.halStream.read = ReadSrc.macroChar := h.1.mp (by simp [hc])
    have ha : s.activeStream.read ≠ ReadSrc.macroChar := h.2 (by simp [hc])
    by_cases hcb : c = '|'
    · simp [get_macro_char, hc, hcb, EngineInvS, EngineInv, hr, ha]
    · simp [get_macro_char, hc, hcb, EngineInvS, EngineInv, hr, ha]

lemma trap_invS (ext : Nat → Nat → Nat) (sc : Nat) (s : EngineState)
    (h : EngineInvS s) : EngineInvS (trap_status_messages ext s sc).2.1 := by
  rw [trap_status_messages]
  by_cases hr : s.halStream.read ≠ ReadSrc.macroChar
  · rw [if_pos hr]
    rcases s.savedStatus with _ | hh | _ <;> exact h
  · rw [if_neg hr]
    by_cases hsc : sc ≠ Status_OK
    · rw [if_pos hsc]
      by_cases hrs : s.reportStatus = StatusPtr.trap
      · rw [if_pos hrs]
        rcases s.savedStatus with _ | hh | _ <;>
          exact end_macro_invS _ h
      · rw [if_neg hrs]
        exact end_macro_invS s h
    · rw [if_neg hsc]
      exact h

/-- C4: between operations an active run (non-NULL cursor) exists iff the
host's character source is the engine's substitute get_macro_char (and
there is a single cursor variable, hence at most one run system-wide).
Each engine operation preserves the invariant, in its inductive
strengthening EngineInvS (which also records that the saved stream is
never the substitute itself); EngineInvS implies the claimed biconditional
EngineInv.  The chained driver reset handler is external and assumed to
preserve the invariant. -/
theorem engine_operations_preserve_invariant
    (dr : EngineState → EngineState)
    (hdr : ∀ t, EngineInvS t → EngineInvS (dr t)) :
    (∀ s, EngineInvS s → EngineInv s) ∧
    (∀ cmd m s, EngineInvS s → EngineInvS ( run_macro cmd m s)) ∧
    (∀ s, EngineInvS s → EngineInvS (get_macro_char s).2) ∧
    (∀ ext sc s, EngineInvS s →
        EngineInvS (trap_status_messages ext s sc).2.1) ∧
    (∀ s, EngineInvS s → EngineInvS ( end_macro s)) ∧
    (∀ s, EngineInvS s → EngineInvS (plugin_reset dr s)) :=
  ⟨fun _ h => h.1,
    fun cmd m s h => run_macro_invS cmd m s h,
    fun s h => get_macro_char_invS s h,
    fun ext sc s h => trap_invS ext sc s h,
    fun s h => end_macro_invS s h,
    fun s h => hdr _ (end_macro_invS s h)⟩

lemma initState_invS : EngineInvS initState := by
  constructor
  · simp [EngineInv, initState]
  · intro h
    exact absurd rfl h

/-- Witness for C4: the invariant preservation applied at a concrete
quiescent state, for end_macro and for an accepted run_macro. -/
theorem engine_operations_preserve_invariant_witness :
    EngineInvS ( end_macro initState) ∧
    EngineInvS ( run_macro ['G'] STATE_IDLE initState) :=
  ⟨(engine_operations_preserve_invariant id (fun _ h => h)).2.2.2.2.1
      initState initState_invS,
    (engine_operations_preserve_invariant id (fun _ h => h)).2.1 ['G']
      STATE_IDLE initState initState_invS⟩

/-- C2: a non-success status delivered to the trap while the substitute is
installed (a macro run is active) makes the trap emit the warning naming
the failing code first, forward the status to the previously saved handler
(when one exists) after re-chaining it, and then tear down: the resulting
state has the pre-run stream, status handler and macro-return handler
restored and the cursor cleared, so no further macro characters are ever
read. -/
theorem trap_abort_restores_and_forwards (ext : Nat → Nat → Nat)
    (s : EngineState) (sc : Nat)
    (hread : s.halStream.read = ReadSrc.macroChar)
    (hcmd : s.command.isSome = true)
    (hrs : s.reportStatus = StatusPtr.trap)
    (hsv : s.savedStatus ≠ StatusPtr.trap)
    (hact : s.activeStream.read ≠ ReadSrc.macroChar)
    (hsc : sc ≠ Status_OK) :
    ((trap_status_messages ext s sc).2.2).head?
        = some (Event.warning (sc % 256)) ∧
    (∀ h, s.savedStatus = StatusPtr.ext h →
        (trap_status_messages ext s sc).1 = ext h sc ∧
        (trap_status_messages ext s sc).2.2
          = [Event.warning (sc % 256), Event.fwdStatus h sc]) ∧
    (s.savedStatus = StatusPtr.null →
        (trap_status_messages ext s sc).1 = sc ∧
        (trap_status_messages ext s sc).2.2 = [Event.warning (sc % 256)]) ∧
    (trap_status_messages ext s sc).2.1.halStream = s.activeStream ∧
    (trap_status_messages ext s sc).2.1.halStream.read ≠ ReadSrc.macroChar ∧
    (trap_status_messages ext s sc).2.1.reportStatus = s.savedStatus ∧
    (trap_status_messages ext s sc).2.1.grblMacroReturn
        = s.savedMacroReturn ∧
    (trap_status_messages ext s sc).2.1.command = none := by
  rcases hss : s.savedStatus with _ | hh | _
  · exact absurd hss hsv
  · have ht : trap_status_messages ext s sc =
        (ext hh sc,
          end_macro { s with reportStatus := StatusPtr.ext hh },
          [Event.warning (sc % 256), Event.fwdStatus hh sc]) := by
      rw [trap_status_messages, if_neg (by simp [hread]), if_pos hsc,
        if_pos hrs, hss]
    rw [ht]
    refine ⟨rfl, ?_, ?_, ?_, ?_, ?_, ?_, ?_⟩ <;>
      simp [ end_macro, hread, hcmd, hss, hact]
  · have ht : trap_status_messages ext s sc =
        (sc, end_macro { s with reportStatus := StatusPtr.null },
          [Event.warning (sc % 256)]) := by
      rw [trap_status_messages, if_neg (by simp [hread]), if_pos hsc,
        if_pos hrs, hss]
    rw [ht]
    refine ⟨rfl, ?_, ?_, ?_, ?_, ?_, ?_, ?_⟩ <;>
      simp [ end_macro, hread, hcmd, hss, hact]

/-- Witness for C2: a failing status 25 injected into a concrete mid-run
state restores the saved device stream and clears the cursor. -/
theorem trap_abort_restores_and_forwards_witness :
    (trap_status_messages (fun _ x => x + 100) midRunState 25).2.1.halStream
        = midRunState.activeStream ∧
    (trap_status_messages (fun _ x => x + 100) midRunState 25).2.1.command
        = none :=
  ⟨(trap_abort_restores_and_forwards (fun _ x => x + 100) midRunState 25 rfl
      rfl rfl (by decide) (by decide) (by decide)).2.2.2.1,
    (trap_abort_restores_and_forwards (fun _ x => x + 100) midRunState 25 rfl
      rfl rfl (by decide) (by decide) (by decide)).2.2.2.2.2.2.2⟩

/-- C3: plugin_reset performs the teardown unconditionally and only then
forwards to the previously chained reset handler: whatever that handler is,
it receives a state in which the original stream binding and both callback
chains are already restored and the cursor cleared. -/
theorem plugin_reset_teardown_before_chain (dr : EngineState → EngineState)
    (s : EngineState)
    (hcmd : s.command.isSome = true)
    (hread : s.halStream.read = ReadSrc.macroChar)
    (hrs : s.reportStatus = StatusPtr.trap) :
    ∃ s', plugin_reset dr s = dr s' ∧
      s'.halStream = s.activeStream ∧
      s'.reportStatus = s.savedStatus ∧
      s'.grblMacroReturn = s.savedMacroReturn ∧
      s'.command = none := by
  refine ⟨ end_macro s, rfl, ?_, ?_, ?_, ?_⟩ <;>
    simp [ end_macro, hread, hcmd, hrs]

/-- Witness for C3 at a concrete mid-run state and the identity as the
chained driver reset handler. -/
theorem plugin_reset_teardown_before_chain_witness :
    ∃ s', plugin_reset id midRunState = id s' ∧
      s'.halStream = midRunState.activeStream ∧
      s'.reportStatus = midRunState.savedStatus ∧
      s'.grblMacroReturn = midRunState.savedMacroReturn ∧
      s'.command = none :=
  plugin_reset_teardown_before_chain id midRunState rfl rfl rfl

/-- C5: a start request while a run is already active (the substitute is
installed as the character source), or while the machine is not idle, or
for empty/0xFF-sentinel slot content, is a complete no-op: the whole state
(cursor, stream binding, status handler, macro-return handler) is
unchanged and nothing is queued or reported. -/
theorem run_macro_rejected_is_noop (cmd : List Char) (m : Nat)
    (s : EngineState)
    (h : s.halStream.read = ReadSrc.macroChar ∨ m ≠ STATE_IDLE ∨
      slotEmpty cmd = true) :
    run_macro cmd m s = s := by
  rw [ run_macro, if_neg]
  rintro ⟨g1, g2, g3⟩
  rcases h with h | h | h
  · exact g2 h
  · exact h g3
  · rw [h] at g1
    exact Bool.noConfusion g1

/-- Witness for C5: a request while a run is active, while not idle, and
for an empty slot, each at concrete inputs. -/
theorem run_macro_rejected_is_noop_witness :
    run_macro ['G'] STATE_IDLE midRunState = midRunState ∧
    run_macro ['G'] 8 initState = initState ∧
    run_macro [] STATE_IDLE initState = initState :=
  ⟨ run_macro_rejected_is_noop ['G'] STATE_IDLE midRunState (Or.inl rfl),
    run_macro_rejected_is_noop ['G'] 8 initState (Or.inr (Or.inl (by decide))),
    run_macro_rejected_is_noop [] STATE_IDLE initState
      (Or.inr (Or.inr rfl))⟩

/-- C6: teardown is idempotent — when no run is active (NULL cursor and the
substitute not installed) end_macro changes nothing at all, and a second
end_macro right after a first one never changes the state further. -/
theorem end_macro_idempotent :
    (∀ s : EngineState, s.command = none →
        s.halStream.read ≠ ReadSrc.macroChar → end_macro s = s) ∧
    (∀ s : EngineState, end_macro ( end_macro s) = end_macro s) := by
  constructor
  · intro s hc hr
    simp [ end_macro, hc, hr]
  · intro s
    obtain ⟨cmd, eol, ⟨hsr, hsf, hsx⟩, ⟨asr, asf, asx⟩, rs, ss, gr, sr⟩ := s
    cases cmd <;> cases hsr <;> cases asr <;> simp [ end_macro]

/-- Witness for C6 at concrete quiescent and mid-run states. -/
theorem end_macro_idempotent_witness :
    end_macro initState = initState ∧
    end_macro ( end_macro midRunState) = end_macro midRunState :=
  ⟨end_macro_idempotent.1 initState rfl (by decide),
    end_macro_idempotent.2 midRunState⟩

/-- C7: while the substitute is installed a success status passes through
the trap unchanged, with no teardown and no events; and whenever the
character source is no longer the substitute, the trap hands any status
unchanged to the previously saved handler and returns that handler's
result, leaving the state untouched. -/
theorem trap_forwards_success_and_foreign (ext : Nat → Nat → Nat)
    (s : EngineState) (sc : Nat) :
    (s.halStream.read = ReadSrc.macroChar → sc = Status_OK →
        trap_status_messages ext s sc = (sc, s, [])) ∧
    (s.halStream.read ≠ ReadSrc.macroChar → ∀ h,
        s.savedStatus = StatusPtr.ext h →
        trap_status_messages ext s sc
          = (ext h sc, s, [Event.fwdStatus h sc])) := by
  constructor
  · intro hr hsc
    simp [trap_status_messages, hr, hsc]
  · intro hr h hss
    simp [trap_status_messages, hr, hss]

/-- Witness for C7: a success status through an active run, and a status
through the trap after the stream moved on, at concrete inputs. -/
theorem trap_forwards_success_and_foreign_witness :
    trap_status_messages (fun _ x => x) midRunState Status_OK
        = (Status_OK, midRunState, []) ∧
    trap_status_messages (fun _ x => x + 1)
        { initState with savedStatus := StatusPtr.ext 5 } 7
      = (8, { initState with savedStatus := StatusPtr.ext 5 },
          [Event.fwdStatus 5 7]) :=
  ⟨(trap_forwards_success_and_foreign (fun _ x => x) midRunState
      Status_OK).1 rfl rfl,
    (trap_forwards_success_and_foreign (fun _ x => x + 1)
      { initState with savedStatus := StatusPtr.ext 5 } 7).2 (by decide)
      5 rfl⟩

/-- C8 counterexample: macro_set itself never fails.  Given a 128-character
value — exceeding MACRO_LENGTH_MAX = 127 — it returns Status_OK and the
slot content changes to the oversized text, contradicting the claim that
macro_set rejects oversized text with a validation error leaving the slot
unchanged. -/
theorem macro_set_oversized_counterexample :
    MACRO_LENGTH_MAX < (List.replicate 128 'a').length ∧
    macro_set [[], []] 490 (List.replicate 128 'a')
      = (Status_OK, [List.replicate 128 'a', []]) := by
  constructor
  · simp [MACRO_LENGTH_MAX]
  · rfl

/-- C8 amended: oversized text is rejected with a validation error before
storage, leaving the slot unchanged — but by the host settings framework,
against the capacity the plugin registers (max_length, from
MACRO_LENGTH_MAX); macro_set itself stores unconditionally and returns
Status_OK.  The framework step is modelled from the spec in
store_macro_setting. -/
theorem setting_store_rejects_oversized (slots : List (List Char))
    (id : Nat) (value : List Char)
    (h : MACRO_LENGTH_MAX < value.length) :
    store_macro_setting slots id value = (Status_ValidationError, slots) := by
  rw [store_macro_setting, if_neg (by omega)]

/-- Witness for C8's amended claim at a concrete 128-character value. -/
theorem setting_store_rejects_oversized_witness :
    MACRO_LENGTH_MAX < (List.replicate 128 'a').length ∧
    store_macro_setting [[], []] 490 (List.replicate 128 'a')
      = (Status_ValidationError, [[], []]) :=
  ⟨by simp [MACRO_LENGTH_MAX],
    setting_store_rejects_oversized [[], []] 490 (List.replicate 128 'a')
      (by simp [MACRO_LENGTH_MAX])⟩

lemma macroOk_iff (slots : List (List Char)) (mid : Nat)
    (hlen : slots.length = N_MACROS) :
    macroOk slots mid = true ↔
      (1 ≤ mid ∧ mid ≤ N_MACROS ∧
        ∃ d, slots.get? (mid - 1) = some d ∧ slotEmpty d = false) := by
  constructor
  · intro h
    rw [macroOk, Bool.and_eq_true] at h
    obtain ⟨h1, h2⟩ := h
    have hle : mid ≤ N_MACROS := of_decide_eq_true h1
    have hmid : 1 ≤ mid := by
      by_contra hm
      have hz : mid = 0 := by omega
      subst hz
      have hnone : slots.get? (macroSlotIndex 0) = none := by
        apply List.get?_eq_none.mpr
        rw [hlen]
        norm_num [macroSlotIndex, N_MACROS]
      rw [hnone] at h2
      exact Bool.noConfusion h2
    have hidx : macroSlotIndex mid = mid - 1 := by
      rw [macroSlotIndex]
      have : mid ≤ 2 := by simpa [N_MACROS] using hle
      omega
    rw [hidx] at h2
    rcases hd : slots.get? (mid - 1) with _ | d
    · rw [hd] at h2
      exact Bool.noConfusion h2
    · rw [hd] at h2
      exact ⟨hmid, hle, d, rfl, by simpa using h2⟩
  · rintro ⟨h1, h2, d, hd, he⟩
    have hidx : macroSlotIndex mid = mid - 1 := by
      rw [macroSlotIndex]
      have : mid ≤ 2 := by simpa [N_MACROS] using h2
      omega
    rw [macroOk, hidx, hd]
    simp [h2, he]

/-- C9: macro_execute returns Status_OK exactly for a valid slot id
(1 ≤ id ≤ N_MACROS) whose content is neither empty nor the 0xFF sentinel;
otherwise it delegates to the next on_macro_execute handler in the chain
when one exists and returns Status_Unhandled when none does. -/
theorem macro_execute_status_spec (slots : List (List Char))
    (chain : Option Nat) (extExec : Nat → Nat → Nat) (m : Nat)
    (s : EngineState) (mid : Nat) (hlen : slots.length = N_MACROS) :
    (macroOk slots mid = true ↔
      (1 ≤ mid ∧ mid ≤ N_MACROS ∧
        ∃ d, slots.get? (mid - 1) = some d ∧ slotEmpty d = false)) ∧
    (macroOk slots mid = true →
      (macro_execute slots chain extExec m s mid).1 = Status_OK) ∧
    (macroOk slots mid = false →
      (macro_execute slots chain extExec m s mid).1 =
        match chain with
        | some h => extExec h mid
        | none => Status_Unhandled) := by
  refine ⟨macroOk_iff slots mid hlen, ?_, ?_⟩
  · intro h
    simp [macro_execute, h]
  · intro h
    simp [macro_execute, h]

/-- Witness for C9: slot 1 of a concrete settings table holds "G" and
executes with Status_OK; slot 2 is empty and falls through to
Status_Unhandled. -/
theorem macro_execute_status_spec_witness :
    (macro_execute [['G'], []] none (fun _ x => x) 0 initState 1).1
        = Status_OK ∧
    (macro_execute [['G'], []] none (fun _ x => x) 0 initState 2).1
        = Status_Unhandled :=
  ⟨(macro_execute_status_spec [['G'], []] none (fun _ x => x) 0 initState 1
      (by decide)).2.1 (by decide),
    (macro_execute_status_spec [['G'], []] none (fun _ x => x) 0 initState 2
      (by decide)).2.2 (by decide)⟩

/-- C10: the slot check of macro_execute only bounds the 8-bit id from
above, so the caller must pass a 1-based id: for 1 ≤ id ≤ N_MACROS the
lookup index id - 1 is in range, while for id = 0 the upper-bound check
still passes (0 ≤ N_MACROS) but the unsigned id - 1 wraps to 255, and in
this total embedding the lookup returns none, so the error (not-handled)
branch is reached with the engine state untouched. -/
theorem macro_execute_slot_bounds (slots : List (List Char))
    (hlen : slots.length = N_MACROS) :
    (∀ mid, 1 ≤ mid → mid ≤ N_MACROS →
        macroSlotIndex mid = mid - 1 ∧
        (slots.get? (macroSlotIndex mid)).isSome = true) ∧
    0 ≤ N_MACROS ∧
    macroSlotIndex 0 = 255 ∧
    slots.get? (macroSlotIndex 0) = none ∧
    (∀ chain extExec m s,
        (macro_execute slots chain extExec m s 0).2 = s ∧
        (macro_execute slots chain extExec m s 0).1 =
          match chain with
          | some h => extExec h 0
          | none => Status_Unhandled) := by
  have hnone : slots.get? (macroSlotIndex 0) = none := by
    apply List.get?_eq_none.mpr
    rw [hlen]
    norm_num [macroSlotIndex, N_MACROS]
  have hok : macroOk slots 0 = false := by
    rw [macroOk, hnone]
    simp
  refine ⟨?_, Nat.zero_le _, rfl, hnone, ?_⟩
  · intro mid h1 h2
    have hidx : macroSlotIndex mid = mid - 1 := by
      rw [macroSlotIndex]
      have : mid ≤ 2 := by simpa [N_MACROS] using h2
      omega
    have hlt : mid - 1 < slots.length := by
      rw [hlen]
      have : mid ≤ 2 := by simpa [N_MACROS] using h2
      omega
    refine ⟨hidx, ?_⟩
    rw [hidx, List.get?_eq_get hlt]
    rfl
  · intro chain extExec m s
    constructor
    · simp [macro_execute, hok]
    · simp [macro_execute, hok]

/-- Witness for C10 at a concrete two-slot table: id 0 wraps to index 255,
whose lookup fails, and id 1 is in range. -/
theorem macro_execute_slot_bounds_witness :
    macroSlotIndex 0 = 255 ∧
    ([['G'], []] : List (List Char)).get? (macroSlotIndex 0) = none ∧
    (([['G'], []] : List (List Char)).get? (macroSlotIndex 1)).isSome
        = true :=
  ⟨(macro_execute_slot_bounds [['G'], []] (by decide)).2.2.1,
    (macro_execute_slot_bounds [['G'], []] (by decide)).2.2.2.1,
    ((macro_execute_slot_bounds [['G'], []] (by decide)).1 1 (by decide)
      (by decide)).2⟩

end Macros
